import Mathlib

/-!
Verification of `idle.cpp`.

`idle.cpp` stops a process (SIGSTOP) at startup, polls the X11 screen-saver
extension for the user's idle time, continues the process (SIGCONT) once the
idle time exceeds a threshold, and stops it again when the user is back.

The embedding below follows `src/idle.cpp` function by function.

* Machine integers are natural numbers / integers with explicit wrap-around.
  The data model is LP64: `unsigned long` has 64 bits, `int` has 32 bits and
  narrowing conversions are modular (two's complement).
* The program talks to its environment through `std::cout`, `kill`, `sleep`,
  `usleep` and the X11 idle query.  A run is the list of these interactions,
  in program order (`Event`).
* `main` never leaves its polling loop.  The environment is an argument: the
  successive results of `get_idle_time` are a finite list, and a run ends when
  the program asks for a reading the list no longer has.  `Run.status` then
  records in which of the two loops the program is waiting.
* Parsing of `argv[1]` and `argv[2]` by `std::stringstream` is not modelled;
  `main` receives the parsed values.
-/

namespace Idle

/-! ## Machine integers -/

/-- Number of values of an `unsigned long` (LP64). -/
def ULONG_RANGE : Nat := 2 ^ 64

/-- Number of values of an `int`. -/
def INT_RANGE : Nat := 2 ^ 32

/-- Conversion `unsigned long → int`, as in `int idle_time = ss.get_idle_time();`
(line 73): the low 32 bits, read as a two's complement number. -/
def toInt (u : Nat) : Int :=
  if u % INT_RANGE < INT_RANGE / 2 then ((u % INT_RANGE : Nat) : Int)
  else ((u % INT_RANGE : Nat) : Int) - (INT_RANGE : Int)

/-- Conversion `int → unsigned long`, applied to the left operand of
`idle_time < s` (line 75) by the usual arithmetic conversions: the value
modulo `2 ^ 64`. -/
def toULong (i : Int) : Nat :=
  (i % (ULONG_RANGE : Int)).toNat

/-! ## Observable behaviour -/

/-- The two signals the program sends. -/
inductive Signal
  | SIGSTOP
  | SIGCONT
  deriving DecidableEq, Repr

/-- The lines written to `std::cout`. -/
inductive Line
  /-- Line 50: what the program does. -/
  | help
  /-- Line 51: `Usage: ./idle [secs] [pid]`. -/
  | usage
  /-- Line 52: the note about SIGCONT. -/
  | note
  /-- Line 61: `You do not want to do this with pid: <pid>`. -/
  | badPid (pid : Int)
  /-- Line 16: `Stopping process: <pid>`. -/
  | stopping (pid : Int)
  /-- Line 21: `Continuing process: <pid>`. -/
  | continuing (pid : Int)
  /-- Lines 69 and 74: `Current idle time: <shown>ms/<s>ms`. -/
  | idle (shown : Int) (s : Nat)
  deriving DecidableEq, Repr

/-- One interaction of the program with its environment. -/
inductive Event
  /-- A line written to `std::cout`. -/
  | out (l : Line)
  /-- The call `kill(pid, sig)`. -/
  | kill (pid : Int) (sig : Signal)
  /-- The constructor of `XScreenSaver` ran and both assertions held. -/
  | xopen
  /-- The call `ss.get_idle_time()` returned `r`. -/
  | query (r : Nat)
  /-- The call `sleep` or `usleep`, with its duration in microseconds. -/
  | sleep (usec : Nat)
  deriving DecidableEq, Repr

/-- The loop in which the program polls.  `Suspended` is the outer loop
(the poll of line 68): the last signal sent was SIGSTOP.  `Active` is the
inner loop (the poll of line 73): the last signal sent was SIGCONT. -/
inductive Ctl
  | Suspended
  | Active
  deriving DecidableEq, Repr

/-- How the observed part of a run ends. -/
inductive Status
  /-- The function `main` returned `code`. -/
  | exited (code : Int)
  /-- An `assert` of the `XScreenSaver` constructor failed. -/
  | aborted
  /-- The program is in the given loop, at its call of `get_idle_time`, and
  the environment has no further reading. -/
  | polling (c : Ctl)
  deriving DecidableEq, Repr

/-- The observed part of a run. -/
structure Run where
  events : List Event
  status : Status
  deriving DecidableEq, Repr

/-- Put the events `evs` in front of a run. -/
def Run.after (evs : List Event) (r : Run) : Run :=
  ⟨evs ++ r.events, r.status⟩

/-! ## The program -/

/-- The function `stop_process` (lines 15-18); the result of `kill` is never used. -/
def stop_process (pid : Int) : List Event :=
  [Event.out (Line.stopping pid), Event.kill pid Signal.SIGSTOP]

/-- The function `cont_process` (lines 20-23); the result of `kill` is never used. -/
def cont_process (pid : Int) : List Event :=
  [Event.out (Line.continuing pid), Event.kill pid Signal.SIGCONT]

/-- The inner loop of `main` (lines 72-80).  The result is the events of the
loop and, when the loop was left by `break`, the readings not yet consumed;
`none` means that the readings ran out inside the loop. -/
def innerLoop (s : Nat) (pid : Int) : List Nat → List Event × Option (List Nat)
  | [] => ([], none)
  | r :: rs =>
    let idle_time : Int := toInt r
    let shown := [Event.query r, Event.out (Line.idle idle_time s)]
    if toULong idle_time < s then
      (shown ++ stop_process pid, some rs)
    else
      let rest := innerLoop s pid rs
      (shown ++ [Event.sleep 50000] ++ rest.1, rest.2)

/-- A `break` of the inner loop has consumed at least one reading. -/
theorem innerLoop_break_length (s : Nat) (pid : Int) :
    ∀ (rs : List Nat) (evs : List Event) (rest : List Nat),
      innerLoop s pid rs = (evs, some rest) → rest.length < rs.length
  | [], evs, rest, h => by simp [innerLoop] at h
  | r :: rs, evs, rest, h => by
    simp only [innerLoop] at h
    split at h
    · simp only [Prod.mk.injEq, Option.some.injEq] at h
      simp [← h.2]
    · simp only [Prod.mk.injEq] at h
      have ih := innerLoop_break_length s pid rs (innerLoop s pid rs).1 rest
        (Prod.ext rfl h.2)
      simp only [List.length_cons]
      omega

/-- The outer loop of `main` (lines 67-83). -/
def outerLoop (s : Nat) (pid : Int) : List Nat → Run
  | [] => ⟨[], Status.polling Ctl.Suspended⟩
  | r :: rs =>
    let idle_time : Nat := r
    let shown := [Event.query r, Event.out (Line.idle (idle_time : Int) s)]
    if idle_time > s then
      match h : innerLoop s pid rs with
      | (evs, none) =>
        ⟨shown ++ cont_process pid ++ evs, Status.polling Ctl.Active⟩
      | (evs, some rest) =>
        have : rest.length < (r :: rs).length :=
          Nat.lt_succ_of_lt (innerLoop_break_length s pid rs evs rest h)
        Run.after (shown ++ cont_process pid ++ evs ++ [Event.sleep 1000000])
          (outerLoop s pid rest)
    else
      Run.after (shown ++ [Event.sleep 1000000]) (outerLoop s pid rs)
termination_by rs => rs.length

/-- The function `main` (lines 48-85).  `argc` is the argument count, `secs`
and `pidArg` are the values read from `argv[1]` and `argv[2]`, and `x11` is
the environment: `none` when an assertion of the `XScreenSaver` constructor
fails, `some rs` when the constructor succeeds and the calls of
`get_idle_time` return the elements of `rs` in turn. -/
def main (argc : Int) (secs : Nat) (pidArg : Int) (x11 : Option (List Nat)) : Run :=
  if argc ≠ 3 then
    ⟨[Event.out Line.help, Event.out Line.usage, Event.out Line.note], Status.exited 0⟩
  else
    let s : Nat := (secs * 1000) % ULONG_RANGE
    let pid : Int := pidArg
    if pid ≤ 0 then
      ⟨[Event.out (Line.badPid pid)], Status.exited 0⟩
    else
      match x11 with
      | none => ⟨[], Status.aborted⟩
      | some rs => Run.after (Event.xopen :: stop_process pid) (outerLoop s pid rs)

/-! ## Reading a run -/

/-- The signal sent by an event, with the process it is sent to. -/
def Event.directive? : Event → Option (Int × Signal)
  | Event.kill pid sig => some (pid, sig)
  | _ => none

/-- The directives (calls of `kill`) of a list of events, in order. -/
def directives (evs : List Event) : List (Int × Signal) :=
  evs.filterMap Event.directive?

/-- The duration of a sleep event. -/
def Event.sleep? : Event → Option Nat
  | Event.sleep usec => some usec
  | _ => none

/-- The durations, in microseconds, of the sleeps of a list of events, in order. -/
def sleeps (evs : List Event) : List Nat :=
  evs.filterMap Event.sleep?

/-- The polling cadence as a property of two runs, `before` on some readings
and `later` on the same readings followed by `r`.  The run `before` ends at a
call of `get_idle_time`; in `later` this call returns `r` and the run ends at
the next call.  The property says that between these two consecutive calls
there is exactly one sleep, of 1 second when the controller is Suspended after
handling `r` and of 50 milliseconds when it is Active. -/
def CadenceAsStated (before later : Run) (r : Nat) : Prop :=
  ∃ gap, later.events = before.events ++ Event.query r :: gap ∧
    (∀ q, Event.query q ∉ gap) ∧
    sleeps gap =
      [if later.status = Status.polling Ctl.Suspended then 1000000 else 50000]

/-- The other loop. -/
def Ctl.other : Ctl → Ctl
  | Ctl.Suspended => Ctl.Active
  | Ctl.Active => Ctl.Suspended

/-- The signal that was sent last when the program polls in the given loop. -/
def Ctl.lastSignal : Ctl → Signal
  | Ctl.Suspended => Signal.SIGSTOP
  | Ctl.Active => Signal.SIGCONT

/-! ## The loops, unrolled -/

/-- The two loops of `main` as one recursion over the readings, with the loop
that makes the next poll as a parameter.  It is not part of the embedding:
it serves the proofs about whole runs, and `outerLoop_eq_unrolled` shows that
it is the run of `outerLoop`. -/
def unrolled (s : Nat) (pid : Int) : Ctl → List Nat → Run
  | c, [] => ⟨[], Status.polling c⟩
  | Ctl.Suspended, r :: rs =>
    if r > s then
      Run.after ([Event.query r, Event.out (Line.idle (r : Int) s)] ++ cont_process pid)
        (unrolled s pid Ctl.Active rs)
    else
      Run.after [Event.query r, Event.out (Line.idle (r : Int) s), Event.sleep 1000000]
        (unrolled s pid Ctl.Suspended rs)
  | Ctl.Active, r :: rs =>
    if toULong (toInt r) < s then
      Run.after ([Event.query r, Event.out (Line.idle (toInt r) s)] ++ stop_process pid
        ++ [Event.sleep 1000000]) (unrolled s pid Ctl.Suspended rs)
    else
      Run.after [Event.query r, Event.out (Line.idle (toInt r) s), Event.sleep 50000]
        (unrolled s pid Ctl.Active rs)

/-! ## The reference machine

The flat two-state machine the nested loops are compared with, written
from its description and not from the source.  It starts Suspended after
emitting a stop, and consumes one reading per step. -/

/-- One step of the reference machine on reading `r` with threshold `t`:
Suspended and `r > t` emits continue and goes Active; Active and `r < t`
emits stop and goes Suspended; otherwise nothing is emitted and the state
is kept. -/
def refStep (t : Nat) (pid : Int) : Ctl → Nat → List (Int × Signal) × Ctl
  | Ctl.Suspended, r =>
    if r > t then ([(pid, Signal.SIGCONT)], Ctl.Active) else ([], Ctl.Suspended)
  | Ctl.Active, r =>
    if r < t then ([(pid, Signal.SIGSTOP)], Ctl.Suspended) else ([], Ctl.Active)

/-- The directives the reference machine emits from state `c` on the readings. -/
def refRun (t : Nat) (pid : Int) : Ctl → List Nat → List (Int × Signal)
  | _, [] => []
  | c, r :: rs => (refStep t pid c r).1 ++ refRun t pid (refStep t pid c r).2 rs

/-- The state of the reference machine after the readings. -/
def refState (t : Nat) (pid : Int) : Ctl → List Nat → Ctl
  | c, [] => c
  | c, r :: rs => refState t pid (refStep t pid c r).2 rs

/-- The reference machine: the startup stop, then the steps from Suspended. -/
def refMachine (t : Nat) (pid : Int) (rs : List Nat) : List (Int × Signal) :=
  (pid, Signal.SIGSTOP) :: refRun t pid Ctl.Suspended rs

/-! ## Unfolding the loops -/

theorem outerLoop_nil (s : Nat) (pid : Int) :
    outerLoop s pid [] = ⟨[], Status.polling Ctl.Suspended⟩ := by
  rw [outerLoop]

theorem outerLoop_le (s : Nat) (pid : Int) (r : Nat) (rs : List Nat) (h : r ≤ s) :
    outerLoop s pid (r :: rs) =
      Run.after [Event.query r, Event.out (Line.idle (r : Int) s), Event.sleep 1000000]
        (outerLoop s pid rs) := by
  rw [outerLoop]
  simp [Nat.not_lt.mpr h]

theorem outerLoop_gt_stay (s : Nat) (pid : Int) (r : Nat) (rs : List Nat) (evs : List Event)
    (h : s < r) (hi : innerLoop s pid rs = (evs, none)) :
    outerLoop s pid (r :: rs) =
      ⟨[Event.query r, Event.out (Line.idle (r : Int) s)] ++ cont_process pid ++ evs,
        Status.polling Ctl.Active⟩ := by
  rw [outerLoop]
  simp only [gt_iff_lt, h, if_true]
  split
  · rename_i evs1 h1
    rw [hi] at h1
    simp only [Prod.mk.injEq] at h1
    simp [h1.1]
  · rename_i evs1 rest h1
    rw [hi] at h1
    simp at h1

theorem outerLoop_gt_break (s : Nat) (pid : Int) (r : Nat) (rs : List Nat) (evs : List Event)
    (rest : List Nat) (h : s < r) (hi : innerLoop s pid rs = (evs, some rest)) :
    outerLoop s pid (r :: rs) =
      Run.after ([Event.query r, Event.out (Line.idle (r : Int) s)] ++ cont_process pid ++ evs
        ++ [Event.sleep 1000000]) (outerLoop s pid rest) := by
  rw [outerLoop]
  simp only [gt_iff_lt, h, if_true]
  split
  · rename_i evs1 h1
    rw [hi] at h1
    simp at h1
  · rename_i evs1 rest1 h1
    rw [hi] at h1
    simp only [Prod.mk.injEq, Option.some.injEq] at h1
    simp [h1.1, h1.2]

theorem innerLoop_nil (s : Nat) (pid : Int) : innerLoop s pid [] = ([], none) := rfl

theorem innerLoop_lt (s : Nat) (pid : Int) (r : Nat) (rs : List Nat)
    (h : toULong (toInt r) < s) :
    innerLoop s pid (r :: rs) =
      ([Event.query r, Event.out (Line.idle (toInt r) s)] ++ stop_process pid, some rs) := by
  simp [innerLoop, h]

theorem innerLoop_ge (s : Nat) (pid : Int) (r : Nat) (rs : List Nat)
    (h : ¬ toULong (toInt r) < s) :
    innerLoop s pid (r :: rs) =
      ([Event.query r, Event.out (Line.idle (toInt r) s), Event.sleep 50000]
        ++ (innerLoop s pid rs).1, (innerLoop s pid rs).2) := by
  simp [innerLoop, h]

theorem Run.after_after (a b : List Event) (r : Run) :
    Run.after a (Run.after b r) = Run.after (a ++ b) r := by
  simp [Run.after]

/-- The inner loop that runs out of readings is the unrolled run from Active. -/
theorem unrolled_active_stay (s : Nat) (pid : Int) :
    ∀ (rs : List Nat) (evs : List Event), innerLoop s pid rs = (evs, none) →
      unrolled s pid Ctl.Active rs = ⟨evs, Status.polling Ctl.Active⟩
  | [], evs, h => by
    simp only [innerLoop_nil, Prod.mk.injEq] at h
    simp [unrolled, ← h.1]
  | r :: rs, evs, h => by
    by_cases hlt : toULong (toInt r) < s
    · rw [innerLoop_lt s pid r rs hlt] at h
      simp at h
    · rw [innerLoop_ge s pid r rs hlt] at h
      simp only [Prod.mk.injEq] at h
      have ih := unrolled_active_stay s pid rs (innerLoop s pid rs).1 (Prod.ext rfl h.2)
      simp [unrolled, hlt, ih, Run.after, ← h.1]

/-- The inner loop that breaks is the unrolled run from Active up to the
break; the outer loop then sleeps and polls again. -/
theorem unrolled_active_break (s : Nat) (pid : Int) :
    ∀ (rs : List Nat) (evs : List Event) (rest : List Nat),
      innerLoop s pid rs = (evs, some rest) →
      unrolled s pid Ctl.Active rs =
        Run.after (evs ++ [Event.sleep 1000000]) (unrolled s pid Ctl.Suspended rest)
  | [], evs, rest, h => by simp [innerLoop_nil] at h
  | r :: rs, evs, rest, h => by
    by_cases hlt : toULong (toInt r) < s
    · rw [innerLoop_lt s pid r rs hlt] at h
      simp only [Prod.mk.injEq, Option.some.injEq] at h
      simp [unrolled, hlt, ← h.1, ← h.2]
    · rw [innerLoop_ge s pid r rs hlt] at h
      simp only [Prod.mk.injEq] at h
      have ih := unrolled_active_break s pid rs (innerLoop s pid rs).1 rest (Prod.ext rfl h.2)
      simp [unrolled, hlt, ih, Run.after, ← h.1]

theorem outerLoop_eq_unrolled_aux (s : Nat) (pid : Int) :
    ∀ (n : Nat) (rs : List Nat), rs.length ≤ n →
      outerLoop s pid rs = unrolled s pid Ctl.Suspended rs
  | _, [], _ => by simp [outerLoop_nil, unrolled]
  | 0, r :: rs, h => by simp at h
  | n + 1, r :: rs, h => by
    have hlen : rs.length ≤ n := by simpa using h
    by_cases hgt : s < r
    · cases hi : innerLoop s pid rs with
      | mk evs o =>
        cases o with
        | none =>
          rw [outerLoop_gt_stay s pid r rs evs hgt hi]
          simp [unrolled, hgt, unrolled_active_stay s pid rs evs hi, Run.after]
        | some rest =>
          have hr : rest.length ≤ n :=
            Nat.le_trans (Nat.le_of_lt (innerLoop_break_length s pid rs evs rest hi)) hlen
          rw [outerLoop_gt_break s pid r rs evs rest hgt hi,
            outerLoop_eq_unrolled_aux s pid n rest hr]
          simp [unrolled, hgt, unrolled_active_break s pid rs evs rest hi, Run.after]
    · rw [outerLoop_le s pid r rs (Nat.le_of_not_lt hgt),
        outerLoop_eq_unrolled_aux s pid n rs hlen]
      simp [unrolled, hgt]

/-- The nested loops and the unrolled recursion give the same run. -/
theorem outerLoop_eq_unrolled (s : Nat) (pid : Int) (rs : List Nat) :
    outerLoop s pid rs = unrolled s pid Ctl.Suspended rs :=
  outerLoop_eq_unrolled_aux s pid rs.length rs (Nat.le_refl _)

/-- The run of `main` on a valid invocation whose idle source opens. -/
theorem main_valid (secs : Nat) (pid : Int) (rs : List Nat) (hpid : 0 < pid) :
    main 3 secs pid (some rs) =
      Run.after (Event.xopen :: stop_process pid)
        (unrolled ((secs * 1000) % ULONG_RANGE) pid Ctl.Suspended rs) := by
  simp [main, Int.not_le.mpr hpid, outerLoop_eq_unrolled]

/-! ## The conversion through `int` -/

/-- A reading below `2 ^ 31` survives the round trip through `int`. -/
theorem toULong_toInt_of_lt (r : Nat) (h : r < 2 ^ 31) : toULong (toInt r) = r := by
  unfold toULong toInt INT_RANGE ULONG_RANGE
  have h1 : r % 2 ^ 32 = r := Nat.mod_eq_of_lt (by omega)
  rw [h1]
  simp only [show r < 2 ^ 32 / 2 by omega, if_true]
  omega

/-- A reading below `2 ^ 31` is shown as it is. -/
theorem toInt_of_lt (r : Nat) (h : r < 2 ^ 31) : toInt r = (r : Int) := by
  unfold toInt INT_RANGE
  have h1 : r % 2 ^ 32 = r := Nat.mod_eq_of_lt (by omega)
  rw [h1]
  simp only [show r < 2 ^ 32 / 2 by omega, if_true]

/-- What the Active poll does on a reading below `2 ^ 31` that is below the
threshold: one stop, and the loop is left. -/
theorem innerLoop_stop_of_lt (s : Nat) (pid : Int) (r : Nat) (rs : List Nat)
    (hr : r < 2 ^ 31) (h : r < s) :
    innerLoop s pid (r :: rs) =
      ([Event.query r, Event.out (Line.idle (r : Int) s), Event.out (Line.stopping pid),
        Event.kill pid Signal.SIGSTOP], some rs) := by
  rw [innerLoop_lt s pid r rs (by rw [toULong_toInt_of_lt r hr]; exact h), toInt_of_lt r hr]
  rfl

theorem directives_append (a b : List Event) :
    directives (a ++ b) = directives a ++ directives b := by
  simp [directives, List.filterMap_append]

theorem Run.after_events (evs : List Event) (r : Run) :
    (Run.after evs r).events = evs ++ r.events := rfl

theorem Run.after_status (evs : List Event) (r : Run) :
    (Run.after evs r).status = r.status := rfl

theorem unrolled_suspended_le (s : Nat) (pid : Int) (r : Nat) (rs : List Nat) (h : r ≤ s) :
    unrolled s pid Ctl.Suspended (r :: rs) =
      Run.after [Event.query r, Event.out (Line.idle (r : Int) s), Event.sleep 1000000]
        (unrolled s pid Ctl.Suspended rs) := by
  simp [unrolled, Nat.not_lt.mpr h]

theorem unrolled_suspended_gt (s : Nat) (pid : Int) (r : Nat) (rs : List Nat) (h : s < r) :
    unrolled s pid Ctl.Suspended (r :: rs) =
      Run.after [Event.query r, Event.out (Line.idle (r : Int) s),
        Event.out (Line.continuing pid), Event.kill pid Signal.SIGCONT]
        (unrolled s pid Ctl.Active rs) := by
  simp [unrolled, h, cont_process]

theorem unrolled_active_lt (s : Nat) (pid : Int) (r : Nat) (rs : List Nat)
    (h : toULong (toInt r) < s) :
    unrolled s pid Ctl.Active (r :: rs) =
      Run.after [Event.query r, Event.out (Line.idle (toInt r) s),
        Event.out (Line.stopping pid), Event.kill pid Signal.SIGSTOP, Event.sleep 1000000]
        (unrolled s pid Ctl.Suspended rs) := by
  simp [unrolled, h, stop_process]

theorem unrolled_active_ge (s : Nat) (pid : Int) (r : Nat) (rs : List Nat)
    (h : ¬ toULong (toInt r) < s) :
    unrolled s pid Ctl.Active (r :: rs) =
      Run.after [Event.query r, Event.out (Line.idle (toInt r) s), Event.sleep 50000]
        (unrolled s pid Ctl.Active rs) := by
  simp [unrolled, h]

/-- Readings that do not exceed the threshold keep the outer loop polling:
they add no directive and do not change where the run ends. -/
theorem unrolled_suspended_quiet (s : Nat) (pid : Int) (tail : List Nat) :
    ∀ (rs : List Nat), (∀ x ∈ rs, x ≤ s) →
      directives (unrolled s pid Ctl.Suspended (rs ++ tail)).events =
        directives (unrolled s pid Ctl.Suspended tail).events ∧
      (unrolled s pid Ctl.Suspended (rs ++ tail)).status =
        (unrolled s pid Ctl.Suspended tail).status
  | [], _ => by simp
  | r :: rs, h => by
    have hr : r ≤ s := h r (List.mem_cons_self r rs)
    have ih := unrolled_suspended_quiet s pid tail rs
      (fun x hx => h x (List.mem_cons_of_mem r hx))
    rw [List.cons_append, unrolled_suspended_le s pid r (rs ++ tail) hr, Run.after_events,
      Run.after_status, directives_append, ih.1, ih.2]
    exact ⟨rfl, rfl⟩

/-- The first event of the outer loop on a nonempty list of readings is its poll. -/
theorem outerLoop_starts_with_query (s : Nat) (pid : Int) (r : Nat) (rs : List Nat) :
    ∃ post, (outerLoop s pid (r :: rs)).events = Event.query r :: post := by
  rw [outerLoop_eq_unrolled]
  by_cases h : r > s
  · exact ⟨_, by simp only [unrolled, h, if_true, Run.after_events]; rfl⟩
  · exact ⟨_, by simp only [unrolled, h, if_false, Run.after_events]; rfl⟩

/-! ## Alternation of the directives -/

theorem directives_cons_kill (pid : Int) (sig : Signal) (evs : List Event) :
    directives (Event.kill pid sig :: evs) = (pid, sig) :: directives evs := rfl

theorem directives_cons_out (l : Line) (evs : List Event) :
    directives (Event.out l :: evs) = directives evs := rfl

theorem directives_cons_query (r : Nat) (evs : List Event) :
    directives (Event.query r :: evs) = directives evs := rfl

theorem directives_cons_sleep (u : Nat) (evs : List Event) :
    directives (Event.sleep u :: evs) = directives evs := rfl

/-- The directives of a run that starts polling in loop `c`: the first goes
to the other loop, the kinds alternate from there, every one is sent to
`pid`, and the parity of their number tells the loop in which the run ends. -/
theorem unrolled_alternates (s : Nat) (pid : Int) :
    ∀ (rs : List Nat) (c : Ctl),
      (∀ i, i < (directives (unrolled s pid c rs).events).length →
        (directives (unrolled s pid c rs).events)[i]? =
          some (pid, if i % 2 = 0 then c.other.lastSignal else c.lastSignal)) ∧
      (unrolled s pid c rs).status =
        Status.polling
          (if (directives (unrolled s pid c rs).events).length % 2 = 0 then c else c.other)
  | [], c => by simp [unrolled, directives]
  | r :: rs, Ctl.Suspended => by
    by_cases h : s < r
    · have ih := unrolled_alternates s pid rs Ctl.Active
      rw [unrolled_suspended_gt s pid r rs h]
      simp only [Run.after_events, Run.after_status, List.cons_append, List.nil_append,
        directives_cons_kill, directives_cons_out, directives_cons_query, List.length_cons]
      refine ⟨?_, ?_⟩
      · intro i hi
        cases i with
        | zero => simp [Ctl.other, Ctl.lastSignal]
        | succ j =>
          rw [List.getElem?_cons_succ, ih.1 j (by omega)]
          by_cases hj : j % 2 = 0
          · have : (j + 1) % 2 ≠ 0 := by omega
            simp [hj, this, Ctl.other, Ctl.lastSignal]
          · have : (j + 1) % 2 = 0 := by omega
            simp [hj, this, Ctl.other, Ctl.lastSignal]
      · rw [ih.2]
        by_cases hl : (directives (unrolled s pid Ctl.Active rs).events).length % 2 = 0
        · have : ((directives (unrolled s pid Ctl.Active rs).events).length + 1) % 2 ≠ 0 := by
            omega
          simp [hl, this, Ctl.other]
        · have : ((directives (unrolled s pid Ctl.Active rs).events).length + 1) % 2 = 0 := by
            omega
          simp [hl, this, Ctl.other]
    · have ih := unrolled_alternates s pid rs Ctl.Suspended
      rw [unrolled_suspended_le s pid r rs (Nat.le_of_not_lt h)]
      simp only [Run.after_events, Run.after_status, List.cons_append, List.nil_append,
        directives_cons_out, directives_cons_query, directives_cons_sleep]
      exact ih
  | r :: rs, Ctl.Active => by
    by_cases h : toULong (toInt r) < s
    · have ih := unrolled_alternates s pid rs Ctl.Suspended
      rw [unrolled_active_lt s pid r rs h]
      simp only [Run.after_events, Run.after_status, List.cons_append, List.nil_append,
        directives_cons_kill, directives_cons_out, directives_cons_query,
        directives_cons_sleep, List.length_cons]
      refine ⟨?_, ?_⟩
      · intro i hi
        cases i with
        | zero => simp [Ctl.other, Ctl.lastSignal]
        | succ j =>
          rw [List.getElem?_cons_succ, ih.1 j (by omega)]
          by_cases hj : j % 2 = 0
          · have : (j + 1) % 2 ≠ 0 := by omega
            simp [hj, this, Ctl.other, Ctl.lastSignal]
          · have : (j + 1) % 2 = 0 := by omega
            simp [hj, this, Ctl.other, Ctl.lastSignal]
      · rw [ih.2]
        by_cases hl : (directives (unrolled s pid Ctl.Suspended rs).events).length % 2 = 0
        · have : ((directives (unrolled s pid Ctl.Suspended rs).events).length + 1) % 2 ≠ 0 := by
            omega
          simp [hl, this, Ctl.other]
        · have : ((directives (unrolled s pid Ctl.Suspended rs).events).length + 1) % 2 = 0 := by
            omega
          simp [hl, this, Ctl.other]
    · have ih := unrolled_alternates s pid rs Ctl.Active
      rw [unrolled_active_ge s pid r rs h]
      simp only [Run.after_events, Run.after_status, List.cons_append, List.nil_append,
        directives_cons_out, directives_cons_query, directives_cons_sleep]
      exact ih

/-- The directives of a valid run of `main`: the startup stop, then those of
the unrolled run from the outer loop. -/
theorem directives_main_valid (secs : Nat) (pid : Int) (rs : List Nat) (hpid : 0 < pid) :
    directives (main 3 secs pid (some rs)).events =
      (pid, Signal.SIGSTOP) ::
        directives (unrolled (secs * 1000 % ULONG_RANGE) pid Ctl.Suspended rs).events := by
  rw [main_valid secs pid rs hpid]
  rfl

theorem status_main_valid (secs : Nat) (pid : Int) (rs : List Nat) (hpid : 0 < pid) :
    (main 3 secs pid (some rs)).status =
      (unrolled (secs * 1000 % ULONG_RANGE) pid Ctl.Suspended rs).status := by
  rw [main_valid secs pid rs hpid]
  rfl

/-! ## The reference machine and the threshold zero -/

/-- On readings below `2 ^ 31` a run that starts polling in loop `c` issues
the directives of the reference machine started in state `c`, and ends in
the state the reference machine ends in. -/
theorem unrolled_refRun (s : Nat) (pid : Int) :
    ∀ (rs : List Nat) (c : Ctl), (∀ r ∈ rs, r < 2 ^ 31) →
      directives (unrolled s pid c rs).events = refRun s pid c rs ∧
      (unrolled s pid c rs).status = Status.polling (refState s pid c rs)
  | [], c, _ => by simp [unrolled, directives, refRun, refState]
  | r :: rs, Ctl.Suspended, h => by
    have hrs : ∀ x ∈ rs, x < 2 ^ 31 := fun x hx => h x (List.mem_cons_of_mem r hx)
    by_cases hgt : s < r
    · have ih := unrolled_refRun s pid rs Ctl.Active hrs
      rw [unrolled_suspended_gt s pid r rs hgt]
      simp only [Run.after_events, Run.after_status, List.cons_append, List.nil_append,
        directives_cons_kill, directives_cons_out, directives_cons_query, ih.1, ih.2]
      simp [refRun, refState, refStep, hgt]
    · have ih := unrolled_refRun s pid rs Ctl.Suspended hrs
      rw [unrolled_suspended_le s pid r rs (Nat.le_of_not_lt hgt)]
      simp only [Run.after_events, Run.after_status, List.cons_append, List.nil_append,
        directives_cons_sleep, directives_cons_out, directives_cons_query, ih.1, ih.2]
      simp [refRun, refState, refStep, hgt]
  | r :: rs, Ctl.Active, h => by
    have hr : r < 2 ^ 31 := h r (List.mem_cons_self r rs)
    have hrs : ∀ x ∈ rs, x < 2 ^ 31 := fun x hx => h x (List.mem_cons_of_mem r hx)
    by_cases hlt : r < s
    · have ih := unrolled_refRun s pid rs Ctl.Suspended hrs
      rw [unrolled_active_lt s pid r rs (by rw [toULong_toInt_of_lt r hr]; exact hlt)]
      simp only [Run.after_events, Run.after_status, List.cons_append, List.nil_append,
        directives_cons_kill, directives_cons_sleep, directives_cons_out,
        directives_cons_query, ih.1, ih.2]
      simp [refRun, refState, refStep, hlt]
    · have ih := unrolled_refRun s pid rs Ctl.Active hrs
      rw [unrolled_active_ge s pid r rs (by rw [toULong_toInt_of_lt r hr]; exact hlt)]
      simp only [Run.after_events, Run.after_status, List.cons_append, List.nil_append,
        directives_cons_sleep, directives_cons_out, directives_cons_query, ih.1, ih.2]
      simp [refRun, refState, refStep, hlt]

/-- With threshold zero the inner loop never breaks and sends nothing. -/
theorem innerLoop_zero (pid : Int) :
    ∀ (rs : List Nat), (innerLoop 0 pid rs).2 = none ∧ directives (innerLoop 0 pid rs).1 = []
  | [] => ⟨rfl, rfl⟩
  | r :: rs => by
    have ih := innerLoop_zero pid rs
    rw [innerLoop_ge 0 pid r rs (Nat.not_lt_zero _)]
    simp only [List.cons_append, List.nil_append, directives_cons_query, directives_cons_out,
      directives_cons_sleep]
    exact ih

/-- With threshold zero a run that polls in the inner loop stays there. -/
theorem unrolled_zero_active (pid : Int) :
    ∀ (rs : List Nat), directives (unrolled 0 pid Ctl.Active rs).events = [] ∧
      (unrolled 0 pid Ctl.Active rs).status = Status.polling Ctl.Active
  | [] => ⟨rfl, rfl⟩
  | r :: rs => by
    have ih := unrolled_zero_active pid rs
    rw [unrolled_active_ge 0 pid r rs (Nat.not_lt_zero _)]
    simp only [Run.after_events, Run.after_status, List.cons_append, List.nil_append,
      directives_cons_query, directives_cons_out, directives_cons_sleep]
    exact ih

/-- With threshold zero the first reading that is not zero sends the one
continue of the run. -/
theorem unrolled_zero_suspended (pid : Int) :
    ∀ (rs : List Nat), (∃ r ∈ rs, 1 ≤ r) →
      directives (unrolled 0 pid Ctl.Suspended rs).events = [(pid, Signal.SIGCONT)] ∧
      (unrolled 0 pid Ctl.Suspended rs).status = Status.polling Ctl.Active
  | [], h => by simp at h
  | r :: rs, h => by
    by_cases hr : 0 < r
    · have ha := unrolled_zero_active pid rs
      rw [unrolled_suspended_gt 0 pid r rs hr]
      simp only [Run.after_events, Run.after_status, List.cons_append, List.nil_append,
        directives_cons_query, directives_cons_out, directives_cons_kill]
      exact ⟨by rw [ha.1], ha.2⟩
    · have hrs : ∃ x ∈ rs, 1 ≤ x := by
        obtain ⟨x, hx, hx1⟩ := h
        rcases List.mem_cons.mp hx with rfl | hx
        · omega
        · exact ⟨x, hx, hx1⟩
      have ih := unrolled_zero_suspended pid rs hrs
      rw [unrolled_suspended_le 0 pid r rs (Nat.le_of_not_lt hr)]
      simp only [Run.after_events, Run.after_status, List.cons_append, List.nil_append,
        directives_cons_query, directives_cons_out, directives_cons_sleep]
      exact ih

/-! ## One more reading -/

/-- A run on the readings `rs` followed by `r` is the run on `rs` followed by
the handling of `r` in the loop where the run on `rs` ended. -/
theorem unrolled_snoc (s : Nat) (pid : Int) (r : Nat) :
    ∀ (rs : List Nat) (c : Ctl), ∃ c2,
      (unrolled s pid c rs).status = Status.polling c2 ∧
      unrolled s pid c (rs ++ [r]) =
        Run.after (unrolled s pid c rs).events (unrolled s pid c2 [r])
  | [], c => ⟨c, by cases c <;> rfl, by cases c <;> simp [unrolled, Run.after]⟩
  | x :: rs, Ctl.Suspended => by
    by_cases h : s < x
    · obtain ⟨c2, h1, h2⟩ := unrolled_snoc s pid r rs Ctl.Active
      refine ⟨c2, ?_, ?_⟩
      · rw [unrolled_suspended_gt s pid x rs h, Run.after_status, h1]
      · rw [List.cons_append, unrolled_suspended_gt s pid x (rs ++ [r]) h,
          unrolled_suspended_gt s pid x rs h, h2, Run.after_after, Run.after_events]
    · obtain ⟨c2, h1, h2⟩ := unrolled_snoc s pid r rs Ctl.Suspended
      refine ⟨c2, ?_, ?_⟩
      · rw [unrolled_suspended_le s pid x rs (Nat.le_of_not_lt h), Run.after_status, h1]
      · rw [List.cons_append, unrolled_suspended_le s pid x (rs ++ [r]) (Nat.le_of_not_lt h),
          unrolled_suspended_le s pid x rs (Nat.le_of_not_lt h), h2, Run.after_after,
          Run.after_events]
  | x :: rs, Ctl.Active => by
    by_cases h : toULong (toInt x) < s
    · obtain ⟨c2, h1, h2⟩ := unrolled_snoc s pid r rs Ctl.Suspended
      refine ⟨c2, ?_, ?_⟩
      · rw [unrolled_active_lt s pid x rs h, Run.after_status, h1]
      · rw [List.cons_append, unrolled_active_lt s pid x (rs ++ [r]) h,
          unrolled_active_lt s pid x rs h, h2, Run.after_after, Run.after_events]
    · obtain ⟨c2, h1, h2⟩ := unrolled_snoc s pid r rs Ctl.Active
      refine ⟨c2, ?_, ?_⟩
      · rw [unrolled_active_ge s pid x rs h, Run.after_status, h1]
      · rw [List.cons_append, unrolled_active_ge s pid x (rs ++ [r]) h,
          unrolled_active_ge s pid x rs h, h2, Run.after_after, Run.after_events]

/-- The handling of one reading in loop `c`: the events after the poll hold
no further poll, and their sleeps are none when the outer loop goes to the
inner loop, the one second sleep when the run is then Suspended, and the 50
millisecond sleep otherwise. -/
theorem unrolled_single (s : Nat) (pid : Int) (r : Nat) (c : Ctl) :
    ∃ gap, (unrolled s pid c [r]).events = Event.query r :: gap ∧
      (∀ q, Event.query q ∉ gap) ∧
      sleeps gap =
        if c = Ctl.Suspended ∧ (unrolled s pid c [r]).status = Status.polling Ctl.Active
        then []
        else if (unrolled s pid c [r]).status = Status.polling Ctl.Suspended then [1000000]
        else [50000] := by
  cases c with
  | Suspended =>
    by_cases h : s < r
    · rw [unrolled_suspended_gt s pid r [] h]
      exact ⟨_, rfl, by simp [unrolled], by simp [unrolled, Run.after, sleeps, Event.sleep?]⟩
    · rw [unrolled_suspended_le s pid r [] (Nat.le_of_not_lt h)]
      exact ⟨_, rfl, by simp [unrolled], by simp [unrolled, Run.after, sleeps, Event.sleep?]⟩
  | Active =>
    by_cases h : toULong (toInt r) < s
    · rw [unrolled_active_lt s pid r [] h]
      exact ⟨_, rfl, by simp [unrolled], by simp [unrolled, Run.after, sleeps, Event.sleep?]⟩
    · rw [unrolled_active_ge s pid r [] h]
      exact ⟨_, rfl, by simp [unrolled], by simp [unrolled, Run.after, sleeps, Event.sleep?]⟩

/-! ## The claims -/

/-- C1, evaluated where it fails.  With `secs = 3000000` the threshold is
3000000000 ms.  The controller is Active after the reading 3000000001; the
next reading 2147483648 is below the threshold, but `int idle_time` holds
-2147483648, which compares as a huge unsigned value: the poll issues no stop,
sleeps 50 ms and the controller stays in the inner loop. -/
theorem C1_active_poll_below_threshold_misses_stop :
    (2147483648 : Nat) < ULONG_RANGE ∧ (2147483648 : Nat) < 3000000 * 1000 % ULONG_RANGE ∧
    innerLoop 3000000000 1234 [2147483648] =
      ([Event.query 2147483648, Event.out (Line.idle (-2147483648) 3000000000),
        Event.sleep 50000], none) ∧
    main 3 3000000 1234 (some [3000000001, 2147483648]) =
      ⟨[Event.xopen, Event.out (Line.stopping 1234), Event.kill 1234 Signal.SIGSTOP,
        Event.query 3000000001, Event.out (Line.idle 3000000001 3000000000),
        Event.out (Line.continuing 1234), Event.kill 1234 Signal.SIGCONT,
        Event.query 2147483648, Event.out (Line.idle (-2147483648) 3000000000),
        Event.sleep 50000], Status.polling Ctl.Active⟩ := by
  refine ⟨by decide, by decide, by decide, ?_⟩
  rw [main_valid _ _ _ (by decide)]
  decide

/-- C2: a poll of the outer loop (Suspended) whose reading `r` exceeds the
threshold `s` issues exactly one continue directive to `pid` and no stop, and
the program goes on in the inner loop (Active): alone, the reading leaves the
program polling in the inner loop; followed by more readings, the events of
the poll are followed by those of the inner loop on these readings. -/
theorem C2_suspended_poll_above_threshold (s : Nat) (pid : Int) (r : Nat) (rs : List Nat)
    (h : r > s) :
    outerLoop s pid [r] =
      ⟨[Event.query r, Event.out (Line.idle (r : Int) s), Event.out (Line.continuing pid),
        Event.kill pid Signal.SIGCONT], Status.polling Ctl.Active⟩ ∧
    directives (outerLoop s pid [r]).events = [(pid, Signal.SIGCONT)] ∧
    ∃ tail, (outerLoop s pid (r :: rs)).events =
      [Event.query r, Event.out (Line.idle (r : Int) s), Event.out (Line.continuing pid),
        Event.kill pid Signal.SIGCONT] ++ (innerLoop s pid rs).1 ++ tail := by
  have h1 : outerLoop s pid [r] =
      ⟨[Event.query r, Event.out (Line.idle (r : Int) s), Event.out (Line.continuing pid),
        Event.kill pid Signal.SIGCONT], Status.polling Ctl.Active⟩ := by
    rw [outerLoop_gt_stay s pid r [] [] h (innerLoop_nil s pid)]
    rfl
  refine ⟨h1, ?_, ?_⟩
  · rw [h1]
    rfl
  · cases hi : innerLoop s pid rs with
    | mk evs o =>
      cases o with
      | none =>
        rw [outerLoop_gt_stay s pid r rs evs h hi]
        exact ⟨[], by simp [cont_process]⟩
      | some rest =>
        rw [outerLoop_gt_break s pid r rs evs rest h hi]
        exact ⟨Event.sleep 1000000 :: (outerLoop s pid rest).events, by
          simp [cont_process, Run.after]⟩

/-- C2 at threshold 5000 ms and pid 1234: the reading 6000, followed by 7000 and 100. -/
theorem C2_suspended_poll_above_threshold_witness :
    (6000 : Nat) > 5000 ∧
    (outerLoop 5000 1234 [6000] =
      ⟨[Event.query 6000, Event.out (Line.idle ((6000 : Nat) : Int) 5000),
        Event.out (Line.continuing 1234),
        Event.kill 1234 Signal.SIGCONT], Status.polling Ctl.Active⟩ ∧
    directives (outerLoop 5000 1234 [6000]).events = [(1234, Signal.SIGCONT)] ∧
    ∃ tail, (outerLoop 5000 1234 (6000 :: [7000, 100])).events =
      [Event.query 6000, Event.out (Line.idle ((6000 : Nat) : Int) 5000),
        Event.out (Line.continuing 1234),
        Event.kill 1234 Signal.SIGCONT] ++ (innerLoop 5000 1234 [7000, 100]).1 ++ tail) :=
  ⟨by decide, C2_suspended_poll_above_threshold 5000 1234 6000 [7000, 100] (by decide)⟩

/-- C4: with two positional arguments (`argc = 3`) and a parsed pid above
zero, whatever the first reading `r` is, the events up to the first call of
`get_idle_time` are the opening of the idle source and one stop directive to
`pid`, with no continue; the first poll is the one of the outer loop, and a
run without any reading ends polling in the outer loop (Suspended). -/
theorem C4_startup_stop_before_first_poll (secs : Nat) (pid : Int) (r : Nat) (rs : List Nat)
    (hpid : 0 < pid) :
    (∃ post, (main 3 secs pid (some (r :: rs))).events =
      [Event.xopen, Event.out (Line.stopping pid), Event.kill pid Signal.SIGSTOP,
        Event.query r] ++ post) ∧
    (main 3 secs pid (some (r :: rs))).events =
      [Event.xopen, Event.out (Line.stopping pid), Event.kill pid Signal.SIGSTOP] ++
        (outerLoop (secs * 1000 % ULONG_RANGE) pid (r :: rs)).events ∧
    main 3 secs pid (some []) =
      ⟨[Event.xopen, Event.out (Line.stopping pid), Event.kill pid Signal.SIGSTOP],
        Status.polling Ctl.Suspended⟩ := by
  have hmain : ∀ l, main 3 secs pid (some l) =
      Run.after (Event.xopen :: stop_process pid)
        (outerLoop (secs * 1000 % ULONG_RANGE) pid l) := by
    intro l
    simp [main, Int.not_le.mpr hpid]
  refine ⟨?_, ?_, ?_⟩
  · obtain ⟨post, hpost⟩ :=
      outerLoop_starts_with_query (secs * 1000 % ULONG_RANGE) pid r rs
    exact ⟨post, by rw [hmain, Run.after_events, hpost]; rfl⟩
  · rw [hmain, Run.after_events]
    rfl
  · rw [hmain, outerLoop_nil]
    rfl

/-- C4 at 5 seconds and pid 1234, with the first reading 9000 followed by 10. -/
theorem C4_startup_stop_before_first_poll_witness :
    (0 : Int) < 1234 ∧
    ((∃ post, (main 3 5 1234 (some (9000 :: [10]))).events =
      [Event.xopen, Event.out (Line.stopping 1234), Event.kill 1234 Signal.SIGSTOP,
        Event.query 9000] ++ post) ∧
    (main 3 5 1234 (some (9000 :: [10]))).events =
      [Event.xopen, Event.out (Line.stopping 1234), Event.kill 1234 Signal.SIGSTOP] ++
        (outerLoop (5 * 1000 % ULONG_RANGE) 1234 (9000 :: [10])).events ∧
    main 3 5 1234 (some []) =
      ⟨[Event.xopen, Event.out (Line.stopping 1234), Event.kill 1234 Signal.SIGSTOP],
        Status.polling Ctl.Suspended⟩) :=
  ⟨by decide, C4_startup_stop_before_first_poll 5 1234 9000 [10] (by decide)⟩

/-- C5: when the argument count is not three or the parsed pid is not above
zero, `main` returns 0 and every event of the run is a line on `std::cout`:
no call of `kill`, no construction of the idle source, no poll, no sleep;
this holds whatever the state of the X11 display. -/
theorem C5_invalid_invocation_exits_quietly (argc : Int) (secs : Nat) (pid : Int)
    (x11 : Option (List Nat)) (h : argc ≠ 3 ∨ pid ≤ 0) :
    (main argc secs pid x11).status = Status.exited 0 ∧
    (∀ e ∈ (main argc secs pid x11).events, ∃ l, e = Event.out l) ∧
    directives (main argc secs pid x11).events = [] ∧
    Event.xopen ∉ (main argc secs pid x11).events ∧
    (∀ r, Event.query r ∉ (main argc secs pid x11).events) := by
  by_cases hargc : argc ≠ 3
  · simp [main, hargc, directives, Event.directive?]
  · have hpid : pid ≤ 0 := h.resolve_left hargc
    simp [main, hargc, hpid, directives, Event.directive?]

/-- C5 at scenario C: two positional arguments and the pid -5. -/
theorem C5_invalid_invocation_exits_quietly_witness :
    ((3 : Int) ≠ 3 ∨ (-5 : Int) ≤ 0) ∧
    ((main 3 5 (-5) (some [6000])).status = Status.exited 0 ∧
    (∀ e ∈ (main 3 5 (-5) (some [6000])).events, ∃ l, e = Event.out l) ∧
    directives (main 3 5 (-5) (some [6000])).events = [] ∧
    Event.xopen ∉ (main 3 5 (-5) (some [6000])).events ∧
    (∀ r, Event.query r ∉ (main 3 5 (-5) (some [6000])).events)) :=
  ⟨by decide, C5_invalid_invocation_exits_quietly 3 5 (-5) (some [6000]) (by decide)⟩

/-- C6: on a valid invocation (pid above zero, idle source open) and any
readings, the directives of `main` are not empty, the directive at an even
position is a stop and the one at an odd position a continue, each sent to
the configured pid (so they begin with the startup stop and strictly
alternate), no two consecutive directives are equal, and the run ends
polling in the outer loop (Suspended) exactly when the last directive is a
stop, in the inner loop (Active) exactly when it is a continue. -/
theorem C6_directives_alternate (secs : Nat) (pid : Int) (rs : List Nat) (hpid : 0 < pid) :
    directives (main 3 secs pid (some rs)).events ≠ [] ∧
    (∀ i, i < (directives (main 3 secs pid (some rs)).events).length →
      (directives (main 3 secs pid (some rs)).events)[i]? =
        some (pid, if i % 2 = 0 then Signal.SIGSTOP else Signal.SIGCONT)) ∧
    (∀ i, i + 1 < (directives (main 3 secs pid (some rs)).events).length →
      (directives (main 3 secs pid (some rs)).events)[i]? ≠
        (directives (main 3 secs pid (some rs)).events)[i + 1]?) ∧
    ((main 3 secs pid (some rs)).status = Status.polling Ctl.Suspended ↔
      (directives (main 3 secs pid (some rs)).events).getLast? =
        some (pid, Signal.SIGSTOP)) ∧
    ((main 3 secs pid (some rs)).status = Status.polling Ctl.Active ↔
      (directives (main 3 secs pid (some rs)).events).getLast? =
        some (pid, Signal.SIGCONT)) := by
  obtain ⟨halt, hst⟩ := unrolled_alternates (secs * 1000 % ULONG_RANGE) pid rs Ctl.Suspended
  rw [directives_main_valid secs pid rs hpid, status_main_valid secs pid rs hpid]
  generalize directives (unrolled (secs * 1000 % ULONG_RANGE) pid Ctl.Suspended rs).events = ds
    at halt hst
  have hidx : ∀ i, i < ((pid, Signal.SIGSTOP) :: ds).length →
      ((pid, Signal.SIGSTOP) :: ds)[i]? =
        some (pid, if i % 2 = 0 then Signal.SIGSTOP else Signal.SIGCONT) := by
    intro i hi
    cases i with
    | zero => simp
    | succ j =>
      rw [List.getElem?_cons_succ, halt j (by simpa using hi)]
      by_cases hj : j % 2 = 0
      · have : (j + 1) % 2 ≠ 0 := by omega
        simp [hj, this, Ctl.other, Ctl.lastSignal]
      · have : (j + 1) % 2 = 0 := by omega
        simp [hj, this, Ctl.other, Ctl.lastSignal]
  have hlast : ((pid, Signal.SIGSTOP) :: ds).getLast? =
      some (pid, if ds.length % 2 = 0 then Signal.SIGSTOP else Signal.SIGCONT) := by
    rw [List.getLast?_eq_getElem?, hidx _ (by simp)]
    simp
  refine ⟨by simp, hidx, ?_, ?_, ?_⟩
  · intro i hi
    rw [hidx i (by omega), hidx (i + 1) hi]
    by_cases hj : i % 2 = 0
    · have : (i + 1) % 2 ≠ 0 := by omega
      simp [hj, this]
    · have : (i + 1) % 2 = 0 := by omega
      simp [hj, this]
  · rw [hst, hlast]
    by_cases hl : ds.length % 2 = 0 <;> simp [hl, Ctl.other]
  · rw [hst, hlast]
    by_cases hl : ds.length % 2 = 0 <;> simp [hl, Ctl.other]

/-- C6 at 5 seconds and pid 1234, on readings that cross the threshold three times. -/
theorem C6_directives_alternate_witness :
    (0 : Int) < 1234 ∧
    (directives (main 3 5 1234 (some [0, 6000, 7000, 100, 9000])).events ≠ [] ∧
    (∀ i, i < (directives (main 3 5 1234 (some [0, 6000, 7000, 100, 9000])).events).length →
      (directives (main 3 5 1234 (some [0, 6000, 7000, 100, 9000])).events)[i]? =
        some (1234, if i % 2 = 0 then Signal.SIGSTOP else Signal.SIGCONT)) ∧
    (∀ i, i + 1 < (directives (main 3 5 1234 (some [0, 6000, 7000, 100, 9000])).events).length →
      (directives (main 3 5 1234 (some [0, 6000, 7000, 100, 9000])).events)[i]? ≠
        (directives (main 3 5 1234 (some [0, 6000, 7000, 100, 9000])).events)[i + 1]?) ∧
    ((main 3 5 1234 (some [0, 6000, 7000, 100, 9000])).status = Status.polling Ctl.Suspended ↔
      (directives (main 3 5 1234 (some [0, 6000, 7000, 100, 9000])).events).getLast? =
        some (1234, Signal.SIGSTOP)) ∧
    ((main 3 5 1234 (some [0, 6000, 7000, 100, 9000])).status = Status.polling Ctl.Active ↔
      (directives (main 3 5 1234 (some [0, 6000, 7000, 100, 9000])).events).getLast? =
        some (1234, Signal.SIGCONT))) :=
  ⟨by decide, C6_directives_alternate 5 1234 [0, 6000, 7000, 100, 9000] (by decide)⟩

/-- C7: on a valid invocation with threshold `t = secs * 1000` (as an
`unsigned long`), when every reading of `rs` is at most `t` and the reading
`r` that follows exceeds `t`, the directives up to the handling of `rs` are
the startup stop alone and the controller is Suspended, and the directives
through the handling of `r` are exactly stop then continue, both to `pid`,
with the controller Active. -/
theorem C7_resume_scenario (secs : Nat) (pid : Int) (rs : List Nat) (r : Nat)
    (hpid : 0 < pid) (hrs : ∀ x ∈ rs, x ≤ secs * 1000 % ULONG_RANGE)
    (hr : r > secs * 1000 % ULONG_RANGE) :
    directives (main 3 secs pid (some rs)).events = [(pid, Signal.SIGSTOP)] ∧
    (main 3 secs pid (some rs)).status = Status.polling Ctl.Suspended ∧
    directives (main 3 secs pid (some (rs ++ [r]))).events =
      [(pid, Signal.SIGSTOP), (pid, Signal.SIGCONT)] ∧
    (main 3 secs pid (some (rs ++ [r]))).status = Status.polling Ctl.Active := by
  have h0 := unrolled_suspended_quiet (secs * 1000 % ULONG_RANGE) pid [] rs hrs
  have h1 := unrolled_suspended_quiet (secs * 1000 % ULONG_RANGE) pid [r] rs hrs
  rw [List.append_nil] at h0
  rw [main_valid secs pid rs hpid, main_valid secs pid (rs ++ [r]) hpid]
  simp only [Run.after_events, Run.after_status, directives_append, h0.1, h0.2, h1.1, h1.2]
  simp [unrolled, hr, Run.after, directives, Event.directive?, stop_process, cont_process]

/-- C7 at scenario A: 5 seconds, pid 1234 and the readings 0, 2000, 6000. -/
theorem C7_resume_scenario_witness :
    (0 : Int) < 1234 ∧ (∀ x ∈ [0, 2000], x ≤ 5 * 1000 % ULONG_RANGE) ∧
    6000 > 5 * 1000 % ULONG_RANGE ∧
    (directives (main 3 5 1234 (some [0, 2000])).events = [(1234, Signal.SIGSTOP)] ∧
    (main 3 5 1234 (some [0, 2000])).status = Status.polling Ctl.Suspended ∧
    directives (main 3 5 1234 (some ([0, 2000] ++ [6000]))).events =
      [(1234, Signal.SIGSTOP), (1234, Signal.SIGCONT)] ∧
    (main 3 5 1234 (some ([0, 2000] ++ [6000]))).status = Status.polling Ctl.Active) :=
  ⟨by decide, by decide, by decide,
    C7_resume_scenario 5 1234 [0, 2000] 6000 (by decide) (by decide) (by decide)⟩

/-- C8 as stated fails.  With a threshold of 5 s and the readings 6000 and
7000, the poll that reads 6000 sends the continue and the inner loop polls
again at once: there is no sleep between these two consecutive calls of
`get_idle_time`, where the claim asks for one sleep of 50 ms. -/
theorem C8_no_sleep_after_continue :
    main 3 5 1234 (some [6000, 7000]) =
      ⟨[Event.xopen, Event.out (Line.stopping 1234), Event.kill 1234 Signal.SIGSTOP,
        Event.query 6000, Event.out (Line.idle 6000 5000),
        Event.out (Line.continuing 1234), Event.kill 1234 Signal.SIGCONT,
        Event.query 7000, Event.out (Line.idle 7000 5000), Event.sleep 50000],
        Status.polling Ctl.Active⟩ ∧
    ¬ CadenceAsStated (main 3 5 1234 (some [])) (main 3 5 1234 (some [6000])) 6000 := by
  refine ⟨?_, ?_⟩
  · rw [main_valid _ _ _ (by decide)]
    decide
  · rintro ⟨gap, h1, -, h3⟩
    have e0 : main 3 5 1234 (some []) =
        ⟨[Event.xopen, Event.out (Line.stopping 1234), Event.kill 1234 Signal.SIGSTOP],
          Status.polling Ctl.Suspended⟩ := by
      rw [main_valid _ _ _ (by decide)]
      decide
    have e1 : main 3 5 1234 (some [6000]) =
        ⟨[Event.xopen, Event.out (Line.stopping 1234), Event.kill 1234 Signal.SIGSTOP,
          Event.query 6000, Event.out (Line.idle 6000 5000),
          Event.out (Line.continuing 1234), Event.kill 1234 Signal.SIGCONT],
          Status.polling Ctl.Active⟩ := by
      rw [main_valid _ _ _ (by decide)]
      decide
    rw [e0, e1] at h1
    rw [e1] at h3
    simp only [List.cons_append, List.nil_append, List.cons.injEq, true_and] at h1
    rw [← h1] at h3
    simp [sleeps, Event.sleep?] at h3

/-- C8, amended: on a valid invocation no sleep precedes the first poll, and
between two consecutive calls of `get_idle_time` (the one that returns `r`
after the readings `rs`, and the next one) there is no further poll and: no
sleep when the controller was Suspended before the reading and is Active
after it; otherwise exactly one sleep, of 1 second when the controller is
Suspended after the reading and of 50 milliseconds when it is Active. -/
theorem C8_cadence_amended (secs : Nat) (pid : Int) (rs : List Nat) (r : Nat)
    (hpid : 0 < pid) :
    sleeps (main 3 secs pid (some [])).events = [] ∧
    ∃ gap, (main 3 secs pid (some (rs ++ [r]))).events =
        (main 3 secs pid (some rs)).events ++ Event.query r :: gap ∧
      (∀ q, Event.query q ∉ gap) ∧
      sleeps gap =
        if (main 3 secs pid (some rs)).status = Status.polling Ctl.Suspended ∧
          (main 3 secs pid (some (rs ++ [r]))).status = Status.polling Ctl.Active
        then []
        else if (main 3 secs pid (some (rs ++ [r]))).status = Status.polling Ctl.Suspended
        then [1000000]
        else [50000] := by
  refine ⟨?_, ?_⟩
  · rw [main_valid secs pid [] hpid]
    rfl
  · obtain ⟨c2, h1, h2⟩ :=
      unrolled_snoc (secs * 1000 % ULONG_RANGE) pid r rs Ctl.Suspended
    obtain ⟨gap, g1, g2, g3⟩ := unrolled_single (secs * 1000 % ULONG_RANGE) pid r c2
    refine ⟨gap, ?_, g2, ?_⟩
    · rw [main_valid secs pid (rs ++ [r]) hpid, main_valid secs pid rs hpid, h2]
      simp only [Run.after_events, g1, List.append_assoc]
    · rw [status_main_valid secs pid (rs ++ [r]) hpid, status_main_valid secs pid rs hpid,
        h2, Run.after_status, h1, g3]
      simp

/-- The amended C8 at 5 seconds and pid 1234: the reading 100 after 0, 6000, 7000. -/
theorem C8_cadence_amended_witness :
    (0 : Int) < 1234 ∧
    (sleeps (main 3 5 1234 (some [])).events = [] ∧
    ∃ gap, (main 3 5 1234 (some ([0, 6000, 7000] ++ [100]))).events =
        (main 3 5 1234 (some [0, 6000, 7000])).events ++ Event.query 100 :: gap ∧
      (∀ q, Event.query q ∉ gap) ∧
      sleeps gap =
        if (main 3 5 1234 (some [0, 6000, 7000])).status = Status.polling Ctl.Suspended ∧
          (main 3 5 1234 (some ([0, 6000, 7000] ++ [100]))).status =
            Status.polling Ctl.Active
        then []
        else if (main 3 5 1234 (some ([0, 6000, 7000] ++ [100]))).status =
          Status.polling Ctl.Suspended
        then [1000000]
        else [50000]) :=
  ⟨by decide, C8_cadence_amended 5 1234 [0, 6000, 7000] 100 (by decide)⟩

/-- C9: with a threshold of 0 seconds and a pid above zero, the inner loop
never breaks and issues no directive, whatever the readings (the Active test
compares an unsigned value with 0); so when some reading is at least 1 the
directives of the whole run are exactly stop then continue, both to `pid`,
and the run ends in the inner loop (Active); when every reading is 0 the
startup stop is the only directive and the run stays Suspended. -/
theorem C9_threshold_zero_never_resuspends (pid : Int) (rs : List Nat) (hpid : 0 < pid) :
    (∀ l, (innerLoop (0 * 1000 % ULONG_RANGE) pid l).2 = none ∧
      directives (innerLoop (0 * 1000 % ULONG_RANGE) pid l).1 = []) ∧
    ((∃ r ∈ rs, 1 ≤ r) →
      directives (main 3 0 pid (some rs)).events =
        [(pid, Signal.SIGSTOP), (pid, Signal.SIGCONT)] ∧
      (main 3 0 pid (some rs)).status = Status.polling Ctl.Active) ∧
    ((∀ r ∈ rs, r = 0) →
      directives (main 3 0 pid (some rs)).events = [(pid, Signal.SIGSTOP)] ∧
      (main 3 0 pid (some rs)).status = Status.polling Ctl.Suspended) := by
  have hz : 0 * 1000 % ULONG_RANGE = 0 := by decide
  rw [directives_main_valid 0 pid rs hpid, status_main_valid 0 pid rs hpid, hz]
  refine ⟨innerLoop_zero pid, ?_, ?_⟩
  · intro h
    have hs := unrolled_zero_suspended pid rs h
    rw [hs.1, hs.2]
    exact ⟨rfl, rfl⟩
  · intro h
    have hq := unrolled_suspended_quiet 0 pid [] rs (fun x hx => Nat.le_of_eq (h x hx))
    rw [List.append_nil] at hq
    rw [hq.1, hq.2]
    exact ⟨rfl, rfl⟩

/-- C9 at pid 1234 and the readings 0, 1, 0, 0. -/
theorem C9_threshold_zero_never_resuspends_witness :
    (0 : Int) < 1234 ∧
    ((∀ l, (innerLoop (0 * 1000 % ULONG_RANGE) 1234 l).2 = none ∧
      directives (innerLoop (0 * 1000 % ULONG_RANGE) 1234 l).1 = []) ∧
    ((∃ r ∈ [0, 1, 0, 0], 1 ≤ r) →
      directives (main 3 0 1234 (some [0, 1, 0, 0])).events =
        [(1234, Signal.SIGSTOP), (1234, Signal.SIGCONT)] ∧
      (main 3 0 1234 (some [0, 1, 0, 0])).status = Status.polling Ctl.Active) ∧
    ((∀ r ∈ [0, 1, 0, 0], r = 0) →
      directives (main 3 0 1234 (some [0, 1, 0, 0])).events = [(1234, Signal.SIGSTOP)] ∧
      (main 3 0 1234 (some [0, 1, 0, 0])).status = Status.polling Ctl.Suspended)) :=
  ⟨by decide, C9_threshold_zero_never_resuspends 1234 [0, 1, 0, 0] (by decide)⟩

/-- C10: for every threshold `t = secs * 1000` (as an `unsigned long`), every
pid above zero and all readings below `2 ^ 31`, the directives issued by the
nested loops of `main` are those of the reference machine (startup stop, then
Suspended and `r > t` gives continue, Active and `r < t` gives stop, otherwise
nothing), and the run ends in the loop that matches the state of the
reference machine. -/
theorem C10_nested_loops_refine_reference (secs : Nat) (pid : Int) (rs : List Nat)
    (hpid : 0 < pid) (hrs : ∀ r ∈ rs, r < 2 ^ 31) :
    directives (main 3 secs pid (some rs)).events =
      refMachine (secs * 1000 % ULONG_RANGE) pid rs ∧
    (main 3 secs pid (some rs)).status =
      Status.polling (refState (secs * 1000 % ULONG_RANGE) pid Ctl.Suspended rs) := by
  have h := unrolled_refRun (secs * 1000 % ULONG_RANGE) pid rs Ctl.Suspended hrs
  rw [directives_main_valid secs pid rs hpid, status_main_valid secs pid rs hpid, h.1, h.2]
  exact ⟨rfl, rfl⟩

/-- C10 at 5 seconds and pid 1234, on readings below, at and above the threshold. -/
theorem C10_nested_loops_refine_reference_witness :
    (0 : Int) < 1234 ∧ (∀ r ∈ [0, 6000, 7000, 100, 5000, 9000], r < 2 ^ 31) ∧
    (directives (main 3 5 1234 (some [0, 6000, 7000, 100, 5000, 9000])).events =
      refMachine (5 * 1000 % ULONG_RANGE) 1234 [0, 6000, 7000, 100, 5000, 9000] ∧
    (main 3 5 1234 (some [0, 6000, 7000, 100, 5000, 9000])).status =
      Status.polling
        (refState (5 * 1000 % ULONG_RANGE) 1234 Ctl.Suspended
          [0, 6000, 7000, 100, 5000, 9000])) :=
  ⟨by decide, by decide,
    C10_nested_loops_refine_reference 5 1234 [0, 6000, 7000, 100, 5000, 9000]
      (by decide) (by decide)⟩

end Idle
